import Mathlib

/-!
Shallow embedding of the FAIR risk-quantification front end
(hdzpeter/security-decision-labs) for checking the natural-language
specification against the code.

Numbers are modelled as rationals (exact field arithmetic mirroring the
JavaScript float formulas), except for the logit/exponential material,
which lives over the reals.

Source map:
  - RiskScenario fields, deterministic FAIR formulas:
    src/unnamed/part_008 (ScenarioDetail), src/unnamed/part_006
    (SensitivityAnalysis), src/tools/fair-simulator/src/hooks/useFairCalculation.ts
  - Portfolio aggregation: src/unnamed/part_003 (Dashboard.calculateClientSideMetrics)
  - Portfolio display layer: src/unnamed/part_011 (AggregatedMetrics)
  - Monte Carlo percentile extraction: src/unnamed/part_008 lines 46-66 and 90-94,
    src/unnamed/part_006 lines 59-82
  - Range validation: src/tools/fair-simulator/src/components/RangeInput.tsx
    (RangeInput.handleBlur lines 39-51, ScenarioCreation.isStepComplete lines 559-571)
-/

/-- Point-estimate fields of a risk scenario (the legacy fields of the
RiskScenario interface used by all client-side calculations).
Susceptibility and slef are stored in percent. -/
structure RiskScenario where
  threatEventFrequency : ℚ
  susceptibility : ℚ
  productivity : ℚ
  response : ℚ
  replacement : ℚ
  fines : ℚ
  competitiveAdvantage : ℚ
  reputation : ℚ
  slef : ℚ
deriving DecidableEq

/-- Sum of the three primary loss forms
(src/unnamed/part_008 line 28, src/unnamed/part_006 lines 36-37). -/
def calculatePrimaryLoss (s : RiskScenario) : ℚ :=
  s.productivity + s.response + s.replacement

/-- Sum of the three secondary loss forms
(src/unnamed/part_008 line 29, src/unnamed/part_006 lines 39-40). -/
def calculateSecondaryLoss (s : RiskScenario) : ℚ :=
  s.fines + s.competitiveAdvantage + s.reputation

/-- Loss magnitude from primary, secondary and the SLEF percentage
(src/unnamed/part_006 lines 42-44: primary + secondary * (slef / 100)). -/
def calculateLM (primaryLoss secondaryLoss slef : ℚ) : ℚ :=
  primaryLoss + secondaryLoss * (slef / 100)

/-- Loss event frequency: TEF * (susceptibility / 100)
(src/unnamed/part_006 lines 46-48, src/unnamed/part_008 lines 37-39). -/
def calculateLEF (threatEventFrequency susceptibility : ℚ) : ℚ :=
  threatEventFrequency * (susceptibility / 100)

/-- ALE = LEF * LM (src/unnamed/part_006 lines 50-52). -/
def calculateALE (lef slee : ℚ) : ℚ := lef * slee

/-- Loss magnitude of a scenario at its point estimates
(calculateSLEE in src/unnamed/part_008 lines 31-35). -/
def scenarioLM (s : RiskScenario) : ℚ :=
  calculateLM (calculatePrimaryLoss s) (calculateSecondaryLoss s) s.slef

/-- Deterministic ALE of a scenario at its point estimates
(calculateALE in src/unnamed/part_008 lines 41-43). -/
def scenarioALE (s : RiskScenario) : ℚ :=
  calculateALE (calculateLEF s.threatEventFrequency s.susceptibility) (scenarioLM s)

/-- Result record of the client-side fallback calculation
(useFairCalculation.ts lines 190-210). -/
structure ClientResult where
  lef : ℚ
  slee : ℚ
  ale : ℚ
  ale_p10 : ℚ
  ale_p50 : ℚ
  ale_p90 : ℚ
  ale_p95 : ℚ
  ale_p99 : ℚ
deriving DecidableEq

/-- Client-side fallback calculation, used when the risk_service backend is
unavailable (useFairCalculation.ts lines 190-210).  The percentiles are the
documented fixed multiples of the deterministic ALE. -/
def calculateClientSide (s : RiskScenario) : ClientResult :=
  let lef := s.threatEventFrequency * (s.susceptibility / 100)
  let primaryLoss := s.productivity + s.response + s.replacement
  let secondaryLoss := s.fines + s.competitiveAdvantage + s.reputation
  let slee := primaryLoss + secondaryLoss * (s.slef / 100)
  let ale := lef * slee
  ⟨lef, slee, ale, ale * (3/10), ale, ale * (5/2), ale * (7/2), ale * 5⟩

/-- Per-scenario record stored by the Dashboard
(src/unnamed/part_003 lines 17-21 and 63-73; the field the Dashboard calls
slee holds the scenario loss magnitude). -/
structure ScenarioCalc where
  ale : ℚ
  lef : ℚ
  slee : ℚ
deriving DecidableEq

/-- Dashboard.calculateClientSideMetrics builds one ScenarioCalc per scenario
from the client-side result (src/unnamed/part_003 lines 64-73). -/
def toScenarioCalc (s : RiskScenario) : ScenarioCalc :=
  ⟨(calculateClientSide s).ale, (calculateClientSide s).lef, (calculateClientSide s).slee⟩

/-- Portfolio metrics record (src/unnamed/part_003 lines 89-98; the id maps
and top_scenario_id are irrelevant to the claims and omitted). -/
structure PortfolioMetrics where
  total_ale : ℚ
  expected_events_per_year : ℚ
  weighted_average_lm : ℚ
  top_scenario_share : ℚ
deriving DecidableEq

/-- Maximum of a list of rationals; on a non-empty list this is the value of
the JavaScript Math.max spread over the list (src/unnamed/part_003 line 84).
The empty case (JavaScript would give negative infinity) is never reached by
the claims, which all assume a non-empty portfolio. -/
def listMax : List ℚ → ℚ
  | [] => 0
  | x :: xs => xs.foldl max x

/-- Client-side portfolio aggregation
(Dashboard.calculateClientSideMetrics, src/unnamed/part_003 lines 63-98). -/
def calculateClientSideMetrics (ss : List RiskScenario) : PortfolioMetrics :=
  let calcs := ss.map toScenarioCalc
  let totalALE : ℚ := calcs.foldl (fun sum c => sum + c.ale) 0
  let totalLEF : ℚ := calcs.foldl (fun sum c => sum + c.lef) 0
  let weightedAvgLM : ℚ :=
    if 0 < totalLEF then calcs.foldl (fun sum c => sum + c.lef * c.slee) 0 / totalLEF else 0
  let ales := calcs.map (fun c => c.ale)
  let maxALE := listMax ales
  let topScenarioShare : ℚ := if 0 < totalALE then maxALE / totalALE * 100 else 0
  ⟨totalALE, totalLEF, weightedAvgLM, topScenarioShare⟩

/-- The zero-LEF edge-case flag of the metrics display
(src/unnamed/part_011 line 23). -/
def zeroLEF (m : PortfolioMetrics) : Bool :=
  decide (m.expected_events_per_year = 0)

/-- The high-concentration flag of the metrics display
(src/unnamed/part_011 line 24: top_scenario_share > 70). -/
def highConcentration (m : PortfolioMetrics) : Bool :=
  decide (70 < m.top_scenario_share)

/-- The Average Loss Magnitude card value (src/unnamed/part_011 line 106):
none stands for the literal string N/A shown when the zero-LEF flag is set,
some v for the formatted weighted_average_lm otherwise. -/
def averageLMValue (m : PortfolioMetrics) : Option ℚ :=
  if m.expected_events_per_year = 0 then none else some m.weighted_average_lm

/- Helper lemmas for fold/sum bookkeeping. -/

/-- A left fold that adds g x at each step computes the initial value plus the
sum of the mapped list. -/
theorem foldl_add_map {α : Type} (g : α → ℚ) :
    ∀ (l : List α) (a : ℚ), l.foldl (fun sum x => sum + g x) a = a + (l.map g).sum := by
  intro l
  induction l with
  | nil => intro a; simp
  | cons x xs ih =>
    intro a
    simp only [List.foldl_cons, List.map_cons, List.sum_cons]
    rw [ih]
    ring

/-- The total_ale field of the aggregated metrics is the sum of the
per-scenario client-side ALE values. -/
theorem metrics_total_ale (ss : List RiskScenario) :
    (calculateClientSideMetrics ss).total_ale =
      (ss.map fun s => (calculateClientSide s).ale).sum := by
  simp only [calculateClientSideMetrics]
  rw [foldl_add_map]
  simp only [List.map_map, zero_add]
  rfl

/-- The expected_events_per_year field of the aggregated metrics is the sum of
the per-scenario client-side LEF values. -/
theorem metrics_total_lef (ss : List RiskScenario) :
    (calculateClientSideMetrics ss).expected_events_per_year =
      (ss.map fun s => (calculateClientSide s).lef).sum := by
  simp only [calculateClientSideMetrics]
  rw [foldl_add_map]
  simp only [List.map_map, zero_add]
  rfl

/-- The weighted_average_lm field, unfolded. -/
theorem metrics_weighted_lm (ss : List RiskScenario) :
    (calculateClientSideMetrics ss).weighted_average_lm =
      (if 0 < (ss.map fun s => (calculateClientSide s).lef).sum then
        (ss.map fun s => (calculateClientSide s).lef * (calculateClientSide s).slee).sum /
          (ss.map fun s => (calculateClientSide s).lef).sum
      else 0) := by
  simp only [calculateClientSideMetrics]
  rw [foldl_add_map, foldl_add_map]
  simp only [List.map_map, zero_add]
  rfl

/-- The top_scenario_share field, unfolded. -/
theorem metrics_top_share (ss : List RiskScenario) :
    (calculateClientSideMetrics ss).top_scenario_share =
      (if 0 < (ss.map fun s => (calculateClientSide s).ale).sum then
        listMax (ss.map fun s => (calculateClientSide s).ale) /
          (ss.map fun s => (calculateClientSide s).ale).sum * 100
      else 0) := by
  simp only [calculateClientSideMetrics]
  rw [foldl_add_map]
  simp only [List.map_map, zero_add]
  rfl

/-- C1: for every set of scenarios, the portfolio total_ale is exactly the sum
of the scenarios' (mean) ALE values and expected_events_per_year is exactly
the sum of their (mean) LEF values.  In the rational model the equality is
exact, which implies the 1e-6 relative floating-point tolerance of the claim;
no correlation mode enters the computation at all. -/
theorem portfolio_means_additive (ss : List RiskScenario) :
    (calculateClientSideMetrics ss).total_ale =
        (ss.map fun s => (calculateClientSide s).ale).sum ∧
      (calculateClientSideMetrics ss).expected_events_per_year =
        (ss.map fun s => (calculateClientSide s).lef).sum :=
  ⟨metrics_total_ale ss, metrics_total_lef ss⟩

/-- C3: when the summed LEF is positive the weighted average loss magnitude
shown by the dashboard equals sum(LEF_i * LM_i) / sum LEF_i, and when the
summed LEF is zero the Average Loss Magnitude card shows the explicit N/A
value (none) rather than a number; in the rational model no NaN exists and
the division is never taken in the zero case. -/
theorem weighted_lm_na (ss : List RiskScenario) :
    ((ss.map fun s => (calculateClientSide s).lef).sum = 0 →
        averageLMValue (calculateClientSideMetrics ss) = none) ∧
      (0 < (ss.map fun s => (calculateClientSide s).lef).sum →
        averageLMValue (calculateClientSideMetrics ss) =
          some ((ss.map fun s => (calculateClientSide s).lef * (calculateClientSide s).slee).sum /
            (ss.map fun s => (calculateClientSide s).lef).sum)) := by
  constructor
  · intro h
    simp [averageLMValue, metrics_total_lef, h]
  · intro h
    have hne : (ss.map fun s => (calculateClientSide s).lef).sum ≠ 0 := ne_of_gt h
    simp [averageLMValue, metrics_total_lef, metrics_weighted_lm, hne, h]

/-- Witness for C3 at a concrete portfolio: a single scenario with TEF = 0 has
summed LEF 0, and the Average Loss Magnitude card shows N/A. -/
theorem weighted_lm_na_witness :
    averageLMValue (calculateClientSideMetrics [⟨0, 50, 100, 0, 0, 0, 0, 0, 0⟩]) = none :=
  (weighted_lm_na [⟨0, 50, 100, 0, 0, 0, 0, 0, 0⟩]).1 (by norm_num [calculateClientSide])

/-- C9: for a portfolio whose summed mean ALE is positive, the stored
top_scenario_share is the largest scenario mean ALE divided by the summed mean
ALE, expressed in percent (the displayed convention, compared against 70), and
the high-concentration flag is raised exactly when that ratio exceeds 70
percent. -/
theorem concentration_share (ss : List RiskScenario)
    (hpos : 0 < (ss.map fun s => (calculateClientSide s).ale).sum) :
    (calculateClientSideMetrics ss).top_scenario_share =
        listMax (ss.map fun s => (calculateClientSide s).ale) /
          (ss.map fun s => (calculateClientSide s).ale).sum * 100 ∧
      (highConcentration (calculateClientSideMetrics ss) = true ↔
        7/10 < listMax (ss.map fun s => (calculateClientSide s).ale) /
          (ss.map fun s => (calculateClientSide s).ale).sum) := by
  have hshare := metrics_top_share ss
  rw [if_pos hpos] at hshare
  refine ⟨hshare, ?_⟩
  rw [highConcentration, decide_eq_true_eq, hshare]
  constructor
  · intro h; linarith
  · intro h; linarith

/-- Witness for C9: a two-scenario portfolio with mean ALEs 8 and 1; the share
is 800/9 percent and the high-concentration flag is raised. -/
theorem concentration_share_witness :
    (calculateClientSideMetrics
        [⟨1, 100, 8, 0, 0, 0, 0, 0, 0⟩, ⟨1, 100, 1, 0, 0, 0, 0, 0, 0⟩]).top_scenario_share =
        listMax ([⟨1, 100, 8, 0, 0, 0, 0, 0, 0⟩, ⟨1, 100, 1, 0, 0, 0, 0, 0, 0⟩].map
            fun s => (calculateClientSide s).ale) /
          ([⟨1, 100, 8, 0, 0, 0, 0, 0, 0⟩, ⟨1, 100, 1, 0, 0, 0, 0, 0, 0⟩].map
            fun s => (calculateClientSide s).ale).sum * 100 ∧
      (highConcentration (calculateClientSideMetrics
          [⟨1, 100, 8, 0, 0, 0, 0, 0, 0⟩, ⟨1, 100, 1, 0, 0, 0, 0, 0, 0⟩]) = true ↔
        7/10 < listMax ([⟨1, 100, 8, 0, 0, 0, 0, 0, 0⟩, ⟨1, 100, 1, 0, 0, 0, 0, 0, 0⟩].map
            fun s => (calculateClientSide s).ale) /
          ([⟨1, 100, 8, 0, 0, 0, 0, 0, 0⟩, ⟨1, 100, 1, 0, 0, 0, 0, 0, 0⟩].map
            fun s => (calculateClientSide s).ale).sum) :=
  concentration_share
    [⟨1, 100, 8, 0, 0, 0, 0, 0, 0⟩, ⟨1, 100, 1, 0, 0, 0, 0, 0, 0⟩]
    (by norm_num [calculateClientSide])

/-- C8: if all six loss forms of a scenario are zero, the client-side ALE and
every reported ALE percentile (p10, p50, p90, p95, p99) are exactly zero, for
every TEF, Susceptibility and SLEF value. -/
theorem zero_loss_idempotence (tef susc slef : ℚ) :
    (calculateClientSide ⟨tef, susc, 0, 0, 0, 0, 0, 0, slef⟩).ale = 0 ∧
      (calculateClientSide ⟨tef, susc, 0, 0, 0, 0, 0, 0, slef⟩).ale_p10 = 0 ∧
      (calculateClientSide ⟨tef, susc, 0, 0, 0, 0, 0, 0, slef⟩).ale_p50 = 0 ∧
      (calculateClientSide ⟨tef, susc, 0, 0, 0, 0, 0, 0, slef⟩).ale_p90 = 0 ∧
      (calculateClientSide ⟨tef, susc, 0, 0, 0, 0, 0, 0, slef⟩).ale_p95 = 0 ∧
      (calculateClientSide ⟨tef, susc, 0, 0, 0, 0, 0, 0, slef⟩).ale_p99 = 0 := by
  simp [calculateClientSide]

/-- The sensitivity analyzer's closed-form partial derivative of ALE with
respect to TEF (src/unnamed/part_006 line 150:
value = (scenario.susceptibility / 100) * lm). -/
def dALEdTEF (s : RiskScenario) : ℚ :=
  (s.susceptibility / 100) * scenarioLM s

/-- The sensitivity analyzer's closed-form partial derivative of ALE with
respect to Susceptibility (src/unnamed/part_006 line 152:
value = scenario.threatEventFrequency * lm * 0.01). -/
def dALEdSusc (s : RiskScenario) : ℚ :=
  s.threatEventFrequency * scenarioLM s * (1/100)

/-- The spec text for the TEF derivative taken at its word: Susceptibility
times LM with Susceptibility the stored factor value in percent.  Written for
comparison with dALEdTEF, which is what the code computes. -/
def specDALEdTEF (s : RiskScenario) : ℚ :=
  s.susceptibility * scenarioLM s

/-- Replace the TEF point estimate of a scenario, all other fields fixed. -/
def setTEF (s : RiskScenario) (t : ℚ) : RiskScenario :=
  { s with threatEventFrequency := t }

/-- C7 counterexample: for the scenario with Susceptibility 50 percent and a
single primary loss of 1000, the code computes 500 while the spec formula read
with Susceptibility in percent gives 50000, so the claim as stated is false. -/
theorem tef_derivative_counterexample :
    dALEdTEF ⟨2, 50, 1000, 0, 0, 0, 0, 0, 0⟩ ≠
      specDALEdTEF ⟨2, 50, 1000, 0, 0, 0, 0, 0, 0⟩ := by
  norm_num [dALEdTEF, specDALEdTEF, scenarioLM, calculateLM, calculatePrimaryLoss,
    calculateSecondaryLoss]

/-- C7 amended: the analyzer's TEF derivative is (Susceptibility / 100) * LM,
with the stored percent value first converted to a fraction, and this value is
the exact slope of the deterministic ALE as TEF varies with all other factors
held at baseline; the Susceptibility derivative is TEF * LM * 0.01 as the spec
states. -/
theorem tef_derivative_amended (s : RiskScenario) (t u : ℚ) :
    dALEdTEF s = (s.susceptibility / 100) * scenarioLM s ∧
      dALEdSusc s = s.threatEventFrequency * scenarioLM s * (1/100) ∧
      scenarioALE (setTEF s u) - scenarioALE (setTEF s t) = dALEdTEF s * (u - t) := by
  refine ⟨rfl, rfl, ?_⟩
  simp only [scenarioALE, setTEF, scenarioLM, calculateALE, calculateLEF, calculateLM,
    calculatePrimaryLoss, calculateSecondaryLoss, dALEdTEF]
  ring

/-- A P10/P50/P90 triple as edited in the RangeInput component
(RangeInput.tsx lines 9-21, tempValues). -/
structure Triple where
  p10 : ℚ
  p50 : ℚ
  p90 : ℚ
deriving DecidableEq

/-- RangeInput.handleBlur (RangeInput.tsx lines 39-51): on blur the edited
triple is passed to onChange after replacing p10 by min p10 p50 and p90 by
max p50 p90. -/
def rangeInputValidate (t : Triple) : Triple :=
  ⟨min t.p10 t.p50, t.p50, max t.p50 t.p90⟩

/-- The TEF and Susceptibility triples of the scenario-creation wizard form
(the fields read by isStepComplete for the lef step,
RangeInput.tsx lines 559-571). -/
structure LefFormData where
  tefP10 : ℚ
  tefP50 : ℚ
  tefP90 : ℚ
  susceptibilityP10 : ℚ
  susceptibilityP50 : ℚ
  susceptibilityP90 : ℚ
deriving DecidableEq

/-- ScenarioCreation.isStepComplete for the lef step
(RangeInput.tsx lines 559-571): positivity and monotonicity of the TEF and
Susceptibility triples must all hold for the wizard to let the user proceed. -/
def isLefStepComplete (f : LefFormData) : Bool :=
  decide (0 < f.tefP50) && decide (0 < f.susceptibilityP50) &&
    decide (0 ≤ f.tefP10) && decide (0 < f.tefP90) &&
    decide (0 ≤ f.susceptibilityP10) && decide (0 < f.susceptibilityP90) &&
    decide (f.tefP10 ≤ f.tefP50) && decide (f.tefP50 ≤ f.tefP90) &&
    decide (f.susceptibilityP10 ≤ f.susceptibilityP50) &&
    decide (f.susceptibilityP50 ≤ f.susceptibilityP90)

/-- C4 counterexample: the triple (5, 2, 1) violates p10 <= p50, yet
RangeInput.handleBlur does not reject it; it silently clamps it to the
monotone triple (2, 2, 2) and hands that to onChange. -/
theorem range_validation_counterexample :
    (Triple.mk 5 2 1).p50 < (Triple.mk 5 2 1).p10 ∧
      rangeInputValidate (Triple.mk 5 2 1) = Triple.mk 2 2 2 ∧
      rangeInputValidate (Triple.mk 5 2 1) ≠ Triple.mk 5 2 1 ∧
      (rangeInputValidate (Triple.mk 5 2 1)).p10 ≤ (rangeInputValidate (Triple.mk 5 2 1)).p50 ∧
      (rangeInputValidate (Triple.mk 5 2 1)).p50 ≤ (rangeInputValidate (Triple.mk 5 2 1)).p90 := by
  refine ⟨by norm_num, ?_, ?_, by norm_num [rangeInputValidate], by norm_num [rangeInputValidate]⟩
  · simp only [rangeInputValidate]
    norm_num
  · simp only [rangeInputValidate]
    intro h
    have h10 := congrArg Triple.p10 h
    norm_num at h10

/-- C4 amended: non-monotone TEF or Susceptibility triples are rejected by the
scenario-creation wizard (isStepComplete for the lef step is false, so the
wizard never reaches a simulation), while the RangeInput editor does not
reject a violating triple: handleBlur silently clamps every edited triple into
monotone order before passing it on. -/
theorem range_validation_amended (f : LefFormData) (t : Triple) :
    ((f.tefP50 < f.tefP10 ∨ f.tefP90 < f.tefP50 ∨
        f.susceptibilityP50 < f.susceptibilityP10 ∨
        f.susceptibilityP90 < f.susceptibilityP50) →
      isLefStepComplete f = false) ∧
      (rangeInputValidate t).p10 ≤ (rangeInputValidate t).p50 ∧
      (rangeInputValidate t).p50 ≤ (rangeInputValidate t).p90 := by
  refine ⟨?_, min_le_right _ _, le_max_left _ _⟩
  intro hviol
  by_contra hne
  have htrue : isLefStepComplete f = true := by
    cases h : isLefStepComplete f
    · exact absurd h hne
    · rfl
  simp only [isLefStepComplete, Bool.and_eq_true, decide_eq_true_eq] at htrue
  rcases hviol with h | h | h | h <;> linarith [htrue.1.2, htrue.2, htrue.1.1.2, htrue.1.1.1.2]

/-- Witness for C4 amended: a concrete wizard form with tefP10 = 3 above
tefP50 = 1 is rejected by the lef-step gate. -/
theorem range_validation_amended_witness :
    isLefStepComplete ⟨3, 1, 2, 0, 50, 100⟩ = false :=
  (range_validation_amended ⟨3, 1, 2, 0, 50, 100⟩ ⟨0, 0, 0⟩).1 (Or.inl (by norm_num))

/-- Ascending sort used by the sensitivity analyzer on its Monte Carlo
results (src/unnamed/part_006 line 76: results.sort by a - b). -/
def sortAsc (xs : List ℚ) : List ℚ :=
  List.insertionSort (· ≤ ·) xs

/-- Descending sort used by the scenario-detail Monte Carlo
(src/unnamed/part_008 line 65: results.sort by b - a). -/
def sortDesc (xs : List ℚ) : List ℚ :=
  List.insertionSort (· ≥ ·) xs

/-- Index used for percentile extraction: floor of the array length times the
quantile, as in results[Math.floor(results.length * q)]. -/
def pIndex (n : ℕ) (q : ℚ) : ℕ :=
  Nat.floor ((n : ℚ) * q)

/-- Nearest-rank percentile as the spec words it: sort ascending and take the
element at index floor(N * q), no interpolation. -/
def nearestRankPercentile (xs : List ℚ) (q : ℚ) : ℚ :=
  (sortAsc xs).getD (pIndex xs.length q) 0

/-- P10/P50/P90 summary of the sensitivity analyzer's nested Monte Carlo
(runMonteCarloForPoint, src/unnamed/part_006 lines 76-81). -/
structure SensitivityStats where
  p10 : ℚ
  p50 : ℚ
  p90 : ℚ
deriving DecidableEq

/-- Percentile extraction of runMonteCarloForPoint
(src/unnamed/part_006 lines 76-81): ascending sort, indices floor(N * 0.1),
floor(N * 0.5), floor(N * 0.9). -/
def runMonteCarloForPointStats (xs : List ℚ) : SensitivityStats :=
  ⟨(sortAsc xs).getD (pIndex xs.length (1/10)) 0,
    (sortAsc xs).getD (pIndex xs.length (5/10)) 0,
    (sortAsc xs).getD (pIndex xs.length (9/10)) 0⟩

/-- P50/P90/P99 summary of the scenario-detail Monte Carlo
(src/unnamed/part_008 lines 90-94). -/
structure DetailStats where
  p50 : ℚ
  p90 : ℚ
  p99 : ℚ
deriving DecidableEq

/-- Percentile extraction of the scenario-detail view
(src/unnamed/part_008 lines 90-94): the results array is sorted descending and
p50, p90, p99 are read at indices floor(N * 0.5), floor(N * 0.1),
floor(N * 0.01) of the descending array. -/
def scenarioDetailStats (xs : List ℚ) : DetailStats :=
  ⟨(sortDesc xs).getD (pIndex xs.length (5/10)) 0,
    (sortDesc xs).getD (pIndex xs.length (1/10)) 0,
    (sortDesc xs).getD (pIndex xs.length (1/100)) 0⟩

/-- The value the scenario-detail view labels Mean (ALE)
(src/unnamed/part_008: line 86 sets ale to calculateALE(editedScenario) and
line 258 displays that ale under the Mean (ALE) card): the deterministic ALE
of the scenario point estimates.  The function takes no input from the Monte
Carlo results array, exactly as the source reads. -/
def detailDisplayedMeanALE (s : RiskScenario) : ℚ :=
  scenarioALE s

/- Sorting lemmas. -/

/-- Sorting does not change the length. -/
theorem sortAsc_length (xs : List ℚ) : (sortAsc xs).length = xs.length :=
  (List.perm_insertionSort _ xs).length_eq

/-- The descending sort is the reverse of the ascending sort. -/
theorem sortDesc_eq_reverse_sortAsc (xs : List ℚ) :
    sortDesc xs = (sortAsc xs).reverse := by
  apply List.eq_of_perm_of_sorted (r := (· ≥ ·))
  · exact (List.perm_insertionSort _ xs).trans
      ((List.perm_insertionSort _ xs).symm.trans (List.reverse_perm _).symm)
  · exact List.sorted_insertionSort _ xs
  · have h := List.sorted_insertionSort (· ≤ ·) xs
    exact List.pairwise_reverse.mpr h

/-- Reading the reverse of a list at index i with a default, when i is in
range, reads the list at the complementary index. -/
theorem getD_reverse_eq (l : List ℚ) (i : ℕ) (h : i < l.length) :
    l.reverse.getD i 0 = l.getD (l.length - 1 - i) 0 := by
  have hrev : i < l.reverse.length := by simpa using h
  have hcomp : l.length - 1 - i < l.length := by omega
  rw [List.getD_eq_getElem l.reverse 0 hrev, List.getD_eq_getElem l 0 hcomp,
    List.getElem_reverse]

/-- The percentile index floor(n * q) is in range for a non-empty array and a
quantile below one. -/
theorem pIndex_lt (n : ℕ) (q : ℚ) (hn : 1 ≤ n) (h0 : 0 ≤ q) (h1 : q < 1) :
    pIndex n q < n := by
  rw [pIndex, Nat.floor_lt (by positivity)]
  calc (n : ℚ) * q < (n : ℚ) * 1 := by
        apply mul_lt_mul_of_pos_left h1
        exact_mod_cast hn
    _ = n := mul_one _

/-- C5 amended: the sensitivity analyzer's nested Monte Carlo summary does
sort ascending and read each percentile q at index floor(N * q) with no
interpolation, as the claim states; the scenario-detail Monte Carlo, however,
sorts descending and reads percentile q at index floor(N * (1 - q)) of the
descending array, i.e. at ascending rank N - 1 - floor(N * (1 - q)), which in
general differs from the nearest-rank index floor(N * q); and the Mean (ALE)
figure that view reports is the deterministic ALE of the scenario point
estimates, computed without consulting the sample array. -/
theorem percentile_extraction_amended (xs : List ℚ) (hne : xs ≠ []) :
    runMonteCarloForPointStats xs =
        ⟨nearestRankPercentile xs (1/10), nearestRankPercentile xs (5/10),
          nearestRankPercentile xs (9/10)⟩ ∧
      (scenarioDetailStats xs).p50 =
        (sortAsc xs).getD (xs.length - 1 - pIndex xs.length (5/10)) 0 ∧
      (scenarioDetailStats xs).p90 =
        (sortAsc xs).getD (xs.length - 1 - pIndex xs.length (1/10)) 0 ∧
      (scenarioDetailStats xs).p99 =
        (sortAsc xs).getD (xs.length - 1 - pIndex xs.length (1/100)) 0 ∧
      ∀ s : RiskScenario, detailDisplayedMeanALE s = scenarioALE s := by
  have hn : 1 ≤ xs.length := List.length_pos.mpr hne
  have hlen : (sortAsc xs).length = xs.length := sortAsc_length xs
  refine ⟨rfl, ?_, ?_, ?_, fun s => rfl⟩ <;>
    · simp only [scenarioDetailStats, sortDesc_eq_reverse_sortAsc]
      rw [getD_reverse_eq _ _ (by rw [hlen]; exact pIndex_lt _ _ hn (by norm_num) (by norm_num)),
        hlen]

/-- C5 counterexample: on the ten distinct samples 1..10 the scenario-detail
p90 is 9 (descending index floor(10 * 0.1) = 1) while the claimed ascending
nearest-rank element at floor(10 * 0.9) = 9 is 10, so the claim as stated is
false for the scenario-detail extraction. -/
theorem percentile_extraction_counterexample :
    (scenarioDetailStats [1, 2, 3, 4, 5, 6, 7, 8, 9, 10]).p90 ≠
      nearestRankPercentile [1, 2, 3, 4, 5, 6, 7, 8, 9, 10] (9/10) := by
  have h1 : pIndex 10 (1/10) = 1 := by
    rw [pIndex]
    norm_num
  have h9 : pIndex 10 (9/10) = 9 := by
    rw [pIndex]
    norm_num
  have hdesc : sortDesc [1, 2, 3, 4, 5, 6, 7, 8, 9, 10] =
      [10, 9, 8, 7, 6, 5, 4, 3, 2, 1] := by
    simp [sortDesc, List.insertionSort, List.orderedInsert]
  have hasc : sortAsc [1, 2, 3, 4, 5, 6, 7, 8, 9, 10] =
      [1, 2, 3, 4, 5, 6, 7, 8, 9, 10] := by
    simp [sortAsc, List.insertionSort, List.orderedInsert]
  simp only [scenarioDetailStats, nearestRankPercentile, List.length_cons, List.length_nil]
  rw [h1, h9, hdesc, hasc]
  norm_num

/-- One iteration of the scenario-detail Monte Carlo
(runMonteCarloSimulation, src/unnamed/part_008 lines 50-63).  Each of the five
uniform draws 0.8 + random * 0.4 is passed in as an argument u in the band
[0.8, 1.2); the iteration multiplies each baseline factor by its draw and
recombines with the deterministic FAIR formulas. -/
def runMonteCarloSampleALE (s : RiskScenario) (u1 u2 u3 u4 u5 : ℚ) : ℚ :=
  let tefVariation := s.threatEventFrequency * u1
  let suscVariation := s.susceptibility * u2
  let primaryVariation := calculatePrimaryLoss s * u3
  let secondaryVariation := calculateSecondaryLoss s * u4
  let slefVariation := s.slef * u5
  let lef := tefVariation * (suscVariation / 100)
  let slee := primaryVariation + secondaryVariation * (slefVariation / 100)
  lef * slee

/-- The band of the multiplicative variation draws: 0.8 + random * 0.4 lies in
[0.8, 1.2) for random in [0, 1); the closed right end point is included for
convenience and only widens the band. -/
def variationBand (u : ℚ) : Prop :=
  8/10 ≤ u ∧ u ≤ 12/10

/-- All nine scenario factors are non-negative. -/
def nonnegScenario (s : RiskScenario) : Prop :=
  0 ≤ s.threatEventFrequency ∧ 0 ≤ s.susceptibility ∧ 0 ≤ s.productivity ∧
    0 ≤ s.response ∧ 0 ≤ s.replacement ∧ 0 ≤ s.fines ∧
    0 ≤ s.competitiveAdvantage ∧ 0 ≤ s.reputation ∧ 0 ≤ s.slef

/-- Product of two draws in the band lies in [0.64, 1.44]. -/
theorem band_mul_bounds {a b : ℚ} (ha : variationBand a) (hb : variationBand b) :
    64/100 ≤ a * b ∧ a * b ≤ 144/100 := by
  obtain ⟨ha1, ha2⟩ := ha
  obtain ⟨hb1, hb2⟩ := hb
  constructor <;> nlinarith

/-- Each element of the descending-sorted P99 read is a member of the original
list when the list is non-empty. -/
theorem scenarioDetail_p99_mem (xs : List ℚ) (hne : xs ≠ []) :
    (scenarioDetailStats xs).p99 ∈ xs := by
  have hn : 1 ≤ xs.length := List.length_pos.mpr hne
  have hlen : (sortDesc xs).length = xs.length := (List.perm_insertionSort _ xs).length_eq
  have hidx : pIndex xs.length (1/100) < (sortDesc xs).length := by
    rw [hlen]
    exact pIndex_lt _ _ hn (by norm_num) (by norm_num)
  have hget : (scenarioDetailStats xs).p99 = (sortDesc xs)[pIndex xs.length (1/100)] :=
    List.getD_eq_getElem _ 0 hidx
  rw [hget]
  exact (List.perm_insertionSort _ xs).mem_iff.mp (List.getElem_mem hidx)

/-- An upper bound on every sample is an upper bound on the detail-view P99. -/
theorem scenarioDetail_p99_le (xs : List ℚ) (hne : xs ≠ []) (B : ℚ)
    (hB : ∀ x ∈ xs, x ≤ B) : (scenarioDetailStats xs).p99 ≤ B :=
  hB _ (scenarioDetail_p99_mem xs hne)

/-- C10: for a scenario with non-negative factors, every Monte Carlo ALE
sample of the scenario-detail simulation lies between 0.4096 and 2.0736 times
the deterministic ALE, and consequently any reported percentile, in particular
the P99 read from the descending-sorted sample array, is at most 2.0736 times
the deterministic ALE. -/
theorem mc_sample_bounds (s : RiskScenario) (hs : nonnegScenario s) :
    (∀ u1 u2 u3 u4 u5 : ℚ, variationBand u1 → variationBand u2 → variationBand u3 →
      variationBand u4 → variationBand u5 →
        4096/10000 * scenarioALE s ≤ runMonteCarloSampleALE s u1 u2 u3 u4 u5 ∧
          runMonteCarloSampleALE s u1 u2 u3 u4 u5 ≤ 20736/10000 * scenarioALE s) ∧
      (∀ xs : List ℚ, xs ≠ [] → (∀ x ∈ xs, x ≤ 20736/10000 * scenarioALE s) →
        (scenarioDetailStats xs).p99 ≤ 20736/10000 * scenarioALE s) := by
  obtain ⟨htef, hsusc, hprod, hresp, hrepl, hfin, hcomp, hrep, hslef⟩ := hs
  constructor
  · intro u1 u2 u3 u4 u5 h1 h2 h3 h4 h5
    set A : ℚ := s.threatEventFrequency * (s.susceptibility / 100) with hA
    set P : ℚ := calculatePrimaryLoss s with hP
    set Q : ℚ := calculateSecondaryLoss s * (s.slef / 100) with hQ
    have hA0 : 0 ≤ A := by
      apply mul_nonneg htef
      positivity
    have hP0 : 0 ≤ P := by
      rw [hP, calculatePrimaryLoss]
      linarith
    have hQ0 : 0 ≤ Q := by
      rw [hQ, calculateSecondaryLoss]
      have : (0:ℚ) ≤ s.fines + s.competitiveAdvantage + s.reputation := by linarith
      positivity
    have hkey : runMonteCarloSampleALE s u1 u2 u3 u4 u5 =
        A * ((u1 * u2) * (P * u3 + Q * (u4 * u5))) := by
      simp only [runMonteCarloSampleALE, hA, hP, hQ]
      ring
    have hdet : scenarioALE s = A * (P + Q) := by
      simp only [scenarioALE, calculateALE, calculateLEF, scenarioLM, calculateLM, hA, hP, hQ]
    obtain ⟨hw1, hw2⟩ := band_mul_bounds h1 h2
    obtain ⟨hv1, hv2⟩ := band_mul_bounds h4 h5
    have hIl : 8/10 * P + 64/100 * Q ≤ P * u3 + Q * (u4 * u5) := by
      have hPu : P * (8/10) ≤ P * u3 := mul_le_mul_of_nonneg_left h3.1 hP0
      have hQu : Q * (64/100) ≤ Q * (u4 * u5) := mul_le_mul_of_nonneg_left hv1 hQ0
      linarith
    have hIu : P * u3 + Q * (u4 * u5) ≤ 12/10 * P + 144/100 * Q := by
      have hPu : P * u3 ≤ P * (12/10) := mul_le_mul_of_nonneg_left h3.2 hP0
      have hQu : Q * (u4 * u5) ≤ Q * (144/100) := mul_le_mul_of_nonneg_left hv2 hQ0
      linarith
    have hI0 : 0 ≤ P * u3 + Q * (u4 * u5) := le_trans (by linarith) hIl
    have hJl : 64/100 * (8/10 * P + 64/100 * Q) ≤ (u1 * u2) * (P * u3 + Q * (u4 * u5)) :=
      calc 64/100 * (8/10 * P + 64/100 * Q)
          ≤ 64/100 * (P * u3 + Q * (u4 * u5)) := by
            apply mul_le_mul_of_nonneg_left hIl
            norm_num
        _ ≤ (u1 * u2) * (P * u3 + Q * (u4 * u5)) := mul_le_mul_of_nonneg_right hw1 hI0
    have hJu : (u1 * u2) * (P * u3 + Q * (u4 * u5)) ≤ 144/100 * (12/10 * P + 144/100 * Q) :=
      calc (u1 * u2) * (P * u3 + Q * (u4 * u5))
          ≤ 144/100 * (P * u3 + Q * (u4 * u5)) := mul_le_mul_of_nonneg_right hw2 hI0
        _ ≤ 144/100 * (12/10 * P + 144/100 * Q) := by
            apply mul_le_mul_of_nonneg_left hIu
            norm_num
    have hAP : 0 ≤ A * P := mul_nonneg hA0 hP0
    have hAQ : 0 ≤ A * Q := mul_nonneg hA0 hQ0
    constructor
    · rw [hkey, hdet]
      have := mul_le_mul_of_nonneg_left hJl hA0
      nlinarith
    · rw [hkey, hdet]
      have := mul_le_mul_of_nonneg_left hJu hA0
      nlinarith
  · intro xs hne hB
    exact scenarioDetail_p99_le xs hne _ hB

/-- Witness for C10 at the all-ones scenario and the central draws u = 1. -/
theorem mc_sample_bounds_witness :
    4096/10000 * scenarioALE ⟨1, 1, 1, 1, 1, 1, 1, 1, 1⟩ ≤
        runMonteCarloSampleALE ⟨1, 1, 1, 1, 1, 1, 1, 1, 1⟩ 1 1 1 1 1 ∧
      runMonteCarloSampleALE ⟨1, 1, 1, 1, 1, 1, 1, 1, 1⟩ 1 1 1 1 1 ≤
        20736/10000 * scenarioALE ⟨1, 1, 1, 1, 1, 1, 1, 1, 1⟩ :=
  (mc_sample_bounds ⟨1, 1, 1, 1, 1, 1, 1, 1, 1⟩ (by norm_num [nonnegScenario])).1
    1 1 1 1 1 (by norm_num [variationBand]) (by norm_num [variationBand])
    (by norm_num [variationBand]) (by norm_num [variationBand]) (by norm_num [variationBand])

/-- Logit transform of a percentage (src/unnamed/part_006 line 55:
log of p / (100 - p)). -/
noncomputable def logit (p : ℝ) : ℝ :=
  Real.log (p / (100 - p))

/-- Inverse logit scaled to percent (src/unnamed/part_006 line 56:
100 / (1 + exp (-x))). -/
noncomputable def invLogit (x : ℝ) : ℝ :=
  100 / (1 + Real.exp (-x))

/-- Perturbation of a percentage-valued factor in the local sensitivity scan
(applyVariation, src/unnamed/part_006 lines 181-187): the baseline is mapped
to logit space, the logit value is scaled by pct / 100, mapped back, and the
result is clamped to [0.1, 99.9]. -/
noncomputable def applyVariationPct (baseline pct : ℝ) : ℝ :=
  max 0.1 (min 99.9 (invLogit (logit baseline * (pct / 100))))

/-- C6: for a percentage baseline strictly between 0 and 100 (the domain on
which the logit transform of the claim is defined) and any perturbation
percentage, the logit-space perturbation lands strictly inside (0, 100) —
already before the final clamp, and a fortiori after it. -/
theorem logit_variation_bounded (baseline pct : ℝ) (_h0 : 0 < baseline)
    (_h1 : baseline < 100) :
    (0 < invLogit (logit baseline * (pct / 100)) ∧
        invLogit (logit baseline * (pct / 100)) < 100) ∧
      0 < applyVariationPct baseline pct ∧ applyVariationPct baseline pct < 100 := by
  have hexp : 0 < Real.exp (-(logit baseline * (pct / 100))) := Real.exp_pos _
  have hden : 0 < 1 + Real.exp (-(logit baseline * (pct / 100))) := by linarith
  have hinv0 : 0 < invLogit (logit baseline * (pct / 100)) := by
    rw [invLogit]
    positivity
  have hinv1 : invLogit (logit baseline * (pct / 100)) < 100 := by
    rw [invLogit, div_lt_iff₀ hden]
    nlinarith
  refine ⟨⟨hinv0, hinv1⟩, ?_, ?_⟩
  · calc (0:ℝ) < 0.1 := by norm_num
      _ ≤ applyVariationPct baseline pct := le_max_left _ _
  · rw [applyVariationPct]
    apply max_lt (by norm_num)
    calc min 99.9 (invLogit (logit baseline * (pct / 100))) ≤ 99.9 := min_le_left _ _
      _ < 100 := by norm_num

/-- Witness for C6 at baseline 50 percent and a 150 percent scan point. -/
theorem logit_variation_bounded_witness :
    (0 < invLogit (logit 50 * (150 / 100)) ∧ invLogit (logit 50 * (150 / 100)) < 100) ∧
      0 < applyVariationPct 50 150 ∧ applyVariationPct 50 150 < 100 :=
  logit_variation_bounded 50 150 (by norm_num) (by norm_num)

/-- The low-frequency threshold of the hybrid sampling branch (spec section
4.2 step 3, reflected in src by the SanityChecks warning boundary
LEF < 0.1, SanityChecks.tsx lines 20-27). -/
noncomputable def lowFreqThreshold : ℝ := 1/10

/-- Modelled from the spec: the Scenario Sampler of section 4.2 lives in the
Python risk_service backend, which is not under src/ (src contains only its
callers: fairApi, useFairCalculation and the SanityChecks display of the 0.1
boundary).  Per spec step 3, one iteration draws its event count from the
expected event rate lam and a uniform variate u in [0, 1): below the
threshold, p_any = 1 - exp (-lam) is computed and a Bernoulli draw yields 1
when u < p_any and 0 otherwise; at or above the threshold the event count is
the Poisson draw, abstracted here as an arbitrary inverse-transform function
passed in as poissonDraw. -/
noncomputable def sampleEventCount (poissonDraw : ℝ → ℝ → ℕ) (lam u : ℝ) : ℕ :=
  if lam < lowFreqThreshold then
    (if u < 1 - Real.exp (-lam) then 1 else 0)
  else poissonDraw lam u

/-- C2: below the threshold the sampled event count is a Bernoulli draw with
success probability 1 - exp(-lam), taking only values 0 and 1, with zero
exactly on the u-interval of length exp(-lam); at or above the threshold the
count is the Poisson draw.  For the boundary case lam = 0.01 (TEF p50 = 0.01,
Susceptibility 100 percent) the set of variates giving zero events is the
interval from 1 - exp(-0.01) to 1, and exp(-0.01) lies between 0.99 and
0.991, within a few percent of 0.99005. -/
theorem lowfreq_hybrid_eventCount (pd : ℝ → ℝ → ℕ) (lam u : ℝ) :
    (lam < lowFreqThreshold →
        (sampleEventCount pd lam u = 0 ∨ sampleEventCount pd lam u = 1) ∧
          (sampleEventCount pd lam u = 0 ↔ 1 - Real.exp (-lam) ≤ u)) ∧
      (lowFreqThreshold ≤ lam → sampleEventCount pd lam u = pd lam u) ∧
      {v : ℝ | v ∈ Set.Ico (0:ℝ) 1 ∧ sampleEventCount pd (1/100) v = 0} =
        Set.Ico (1 - Real.exp (-(1/100 : ℝ))) 1 ∧
      0.99 ≤ Real.exp (-(1/100 : ℝ)) ∧ Real.exp (-(1/100 : ℝ)) ≤ 0.991 := by
  have hlo : (0.99 : ℝ) ≤ Real.exp (-(1/100)) := by
    have h := Real.add_one_le_exp (-(1/100) : ℝ)
    linarith
  have hhi : Real.exp (-(1/100 : ℝ)) ≤ 0.991 := by
    have h : (1 : ℝ) + 1/100 ≤ Real.exp (1/100) := by
      have := Real.add_one_le_exp (1/100 : ℝ)
      linarith
    have hpos : (0:ℝ) < Real.exp (1/100) := Real.exp_pos _
    rw [Real.exp_neg, inv_le_comm₀ hpos (by norm_num)]
    linarith
  have hbranch : ∀ w : ℝ, sampleEventCount pd (1/100) w =
      if w < 1 - Real.exp (-(1/100 : ℝ)) then 1 else 0 := by
    intro w
    rw [sampleEventCount, if_pos (by rw [lowFreqThreshold]; norm_num)]
  refine ⟨?_, ?_, ?_, hlo, hhi⟩
  · intro hlt
    rw [sampleEventCount, if_pos hlt]
    by_cases hu : u < 1 - Real.exp (-lam)
    · rw [if_pos hu]
      exact ⟨Or.inr rfl, by constructor <;> intro h <;> [exact absurd h one_ne_zero; linarith]⟩
    · rw [if_neg hu]
      exact ⟨Or.inl rfl, by constructor <;> intro h <;> [linarith; rfl]⟩
  · intro hge
    rw [sampleEventCount, if_neg (not_lt.mpr hge)]
  · ext v
    simp only [Set.mem_setOf_eq, Set.mem_Ico, hbranch]
    constructor
    · rintro ⟨⟨h0v, h1v⟩, hzero⟩
      by_cases hv : v < 1 - Real.exp (-(1/100 : ℝ))
      · rw [if_pos hv] at hzero
        exact absurd hzero one_ne_zero
      · exact ⟨not_lt.mp hv, h1v⟩
    · rintro ⟨hge, hlt⟩
      refine ⟨⟨by linarith, hlt⟩, ?_⟩
      rw [if_neg (not_lt.mpr hge)]

/-- Witness for C2: above the threshold, at lam = 0.2 and u = 0.5, the sampler
defers to the supplied Poisson draw. -/
theorem lowfreq_hybrid_eventCount_witness :
    sampleEventCount (fun _ _ => 5) (2/10) (1/2) = 5 :=
  (lowfreq_hybrid_eventCount (fun _ _ => 5) (2/10) (1/2)).2.1
    (by rw [lowFreqThreshold]; norm_num)

/-- Witness for C5 amended at the concrete three-sample list and a concrete
scenario. -/
theorem percentile_extraction_amended_witness :
    runMonteCarloForPointStats [3, 1, 2] =
        ⟨nearestRankPercentile [3, 1, 2] (1/10), nearestRankPercentile [3, 1, 2] (5/10),
          nearestRankPercentile [3, 1, 2] (9/10)⟩ ∧
      (scenarioDetailStats [3, 1, 2]).p50 =
        (sortAsc [3, 1, 2]).getD ([3, 1, 2].length - 1 - pIndex [3, 1, 2].length (5/10)) 0 ∧
      (scenarioDetailStats [3, 1, 2]).p90 =
        (sortAsc [3, 1, 2]).getD ([3, 1, 2].length - 1 - pIndex [3, 1, 2].length (1/10)) 0 ∧
      (scenarioDetailStats [3, 1, 2]).p99 =
        (sortAsc [3, 1, 2]).getD ([3, 1, 2].length - 1 - pIndex [3, 1, 2].length (1/100)) 0 ∧
      detailDisplayedMeanALE ⟨1, 10, 7, 0, 0, 0, 0, 0, 0⟩ =
        scenarioALE ⟨1, 10, 7, 0, 0, 0, 0, 0, 0⟩ :=
  ⟨(percentile_extraction_amended [3, 1, 2] (by simp)).1,
    (percentile_extraction_amended [3, 1, 2] (by simp)).2.1,
    (percentile_extraction_amended [3, 1, 2] (by simp)).2.2.1,
    (percentile_extraction_amended [3, 1, 2] (by simp)).2.2.2.1,
    (percentile_extraction_amended [3, 1, 2] (by simp)).2.2.2.2 ⟨1, 10, 7, 0, 0, 0, 0, 0, 0⟩⟩
